import Mathlib

/-!
Verification of the batch-lifecycle workflow of `openai_batch_manager`
(chunking, remote-client retry policy, per-unit lifecycle, orchestration,
cleanup, connection lifecycle) via a shallow embedding of the Python
sources in Lean.

Sources embedded:
  * `openai_batch_manager/utils.py` — `split_jsonl_file`, `clean_up_files`
  * `openai_batch_manager/batch_manager.py` — `BatchManager.upload_file`,
    the tenacity retry decorators, `process_batch` (incl. the polling
    loop), `process_batches`
  * `openai_batch_manager/cli.py` — `run_batch_processing`

Effectful Python code is embedded as pure functions over explicit oracles
(outcomes of HTTP calls, of file reads, of deletions); raised exceptions
become `Except PyExc`; the unbounded polling loop takes explicit fuel and
returns `none` when the fuel runs out before a terminal status.
-/

namespace OpenAIBatchManager

/-- Python exceptions that can arise in the embedded code paths. -/
inductive PyExc where
  /-- an unresolved global name (`NameError: name '...' is not defined`) -/
  | NameError (name : String)
  /-- exception `httpx.RequestError`: transport-level failure (connection, timeout) -/
  | RequestError
  /-- exception `httpx.HTTPStatusError` raised by `response.raise_for_status()` -/
  | HTTPStatusError (status : Nat)
  /-- exception `RuntimeError(msg)` -/
  | RuntimeError (msg : String)
  /-- exception `ValueError(msg)` -/
  | ValueError (msg : String)
  /-- exception `KeyError(key)` from a failed dict subscript -/
  | KeyError (key : String)
  /-- exception `ZeroDivisionError` from the `%` with zero modulus -/
  | ZeroDivisionError
  /-- exception `OSError` from a failed `open`/filesystem call -/
  | OSError (msg : String)
  deriving DecidableEq, Repr

/-! ## Chunker: `utils.split_jsonl_file`

```python
def split_jsonl_file(input_file: str, chunk_size: int) -> List[str]:
    chunk_files = []
    with open(input_file, 'r', encoding='utf-8') as infile:
        chunk = []
        chunk_index = 1
        for line_number, line in enumerate(infile, start=1):
            chunk.append(line)
            if line_number % chunk_size == 0:
                ... write chunk ...; chunk_files.append(...); chunk = []
        if chunk:
            ... write chunk ...; chunk_files.append(...)
    return chunk_files
```

We embed the record-level behaviour: the function groups the input lines
into the chunks it writes out, in order.  `line_number % chunk_size`
raises `ZeroDivisionError` when `chunk_size == 0`, checked at the point
the `%` is evaluated (i.e. only when the loop body runs at least once). -/

/-- The `for line_number, line in enumerate(infile, start=1)` loop of
`split_jsonl_file`: `n` is the current `line_number`, `chunk` the pending
accumulator, the result the list of chunks written out (incl. the final
`if chunk:` flush). -/
def splitGo (chunk_size : Nat) : Nat → List α → List α → Except PyExc (List (List α))
  | _, chunk, [] => .ok (if chunk.isEmpty then [] else [chunk])
  | n, chunk, line :: rest =>
    if chunk_size = 0 then
      .error .ZeroDivisionError
    else
      let chunk' := chunk ++ [line]
      if n % chunk_size = 0 then
        (splitGo chunk_size (n + 1) [] rest).map (chunk' :: ·)
      else
        splitGo chunk_size (n + 1) chunk' rest

/-- Function `split_jsonl_file`, at the level of the record groups it materialises:
the input's lines grouped into the chunk files' contents, in order. -/
def split_jsonl_file (chunk_size : Nat) (lines : List α) : Except PyExc (List (List α)) :=
  splitGo chunk_size 1 [] lines

/-- Stepping `line_number` from `n - 1` to `n` without a flush: when
`n % k ≠ 0` the residue just grows by one. -/
theorem mod_pred_of_ne (k n : Nat) (hk : 0 < k) (hn : 0 < n) (h : n % k ≠ 0) :
    n % k = (n - 1) % k + 1 := by
  have hr : (n - 1) % k < k := Nat.mod_lt _ hk
  have e : n % k = ((n - 1) % k + 1 % k) % k := by
    conv_lhs => rw [show n = (n - 1) + 1 by omega]
    rw [Nat.add_mod]
  rcases Nat.lt_or_ge 1 k with hk2 | hk2
  · rw [Nat.mod_eq_of_lt hk2] at e
    rcases Nat.lt_or_ge ((n - 1) % k + 1) k with hlt | hge
    · rw [Nat.mod_eq_of_lt hlt] at e; exact e
    · have hek : (n - 1) % k + 1 = k := by omega
      rw [hek, Nat.mod_self] at e
      exact absurd e h
  · exfalso; apply h
    have hk1 : k = 1 := by omega
    subst hk1; omega

/-- Stepping `line_number` from `n - 1` to `n` at a flush point: when
`n % k = 0` the pending chunk held `k - 1` records before the append. -/
theorem mod_pred_of_eq (k n : Nat) (hk : 0 < k) (hn : 0 < n) (h : n % k = 0) :
    (n - 1) % k = k - 1 := by
  have hr : (n - 1) % k < k := Nat.mod_lt _ hk
  have e : n % k = ((n - 1) % k + 1 % k) % k := by
    conv_lhs => rw [show n = (n - 1) + 1 by omega]
    rw [Nat.add_mod]
  rcases Nat.lt_or_ge 1 k with hk2 | hk2
  · rw [Nat.mod_eq_of_lt hk2] at e
    rcases Nat.lt_or_ge ((n - 1) % k + 1) k with hlt | hge
    · rw [Nat.mod_eq_of_lt hlt] at e; omega
    · omega
  · omega

/-- Main invariant of the chunking loop: starting from any loop state whose
pending chunk holds `(n - 1) % k` records, the loop returns normally and
produces a partition of `chunk ++ lines` into blocks of size `k` (the last
possibly shorter but never empty), `⌈(chunk.length + lines.length)/k⌉` of
them in total. -/
theorem splitGo_spec {α : Type} (k : Nat) (hk : 0 < k) :
    ∀ (lines chunk : List α) (n : Nat), 0 < n → chunk.length = (n - 1) % k →
    ∃ L, splitGo k n chunk lines = .ok L ∧
      L.flatten = chunk ++ lines ∧
      L.length = (chunk.length + lines.length + k - 1) / k ∧
      (∀ c ∈ L.dropLast, c.length = k) ∧
      (∀ c ∈ L, 1 ≤ c.length ∧ c.length ≤ k) := by
  intro lines
  induction lines with
  | nil =>
    intro chunk n hn hc
    by_cases hce : chunk.isEmpty
    · refine ⟨[], by simp [splitGo, hce], ?_, ?_, by simp, by simp⟩
      · simp [List.isEmpty_iff.mp hce]
      · rw [List.isEmpty_iff.mp hce]
        simp [Nat.div_eq_of_lt (show k - 1 < k by omega)]
    · have hne : chunk ≠ [] := fun h => hce (by simp [h])
      have h1 : 1 ≤ chunk.length := List.length_pos.mpr hne
      have h2 : chunk.length < k := by
        rw [hc]; exact Nat.mod_lt _ hk
      refine ⟨[chunk], by simp [splitGo, hce], by simp, ?_, by simp, ?_⟩
      · have he : chunk.length + 0 + k - 1 = (chunk.length - 1) + k := by omega
        simp only [List.length_singleton, List.length_nil, he]
        rw [Nat.add_div_right _ hk, Nat.div_eq_of_lt (by omega)]
      · intro c hcm
        rcases List.mem_singleton.mp hcm with rfl
        exact ⟨h1, by omega⟩
  | cons line rest ih =>
    intro chunk n hn hc
    have hk0 : ¬ k = 0 := by omega
    by_cases h0 : n % k = 0
    · -- the chunk is flushed: it reaches exactly k records here
      have hcl : chunk.length + 1 = k := by
        rw [hc, mod_pred_of_eq k n hk hn h0]; omega
      obtain ⟨L', hgo, hflat, hlen, hdl, hall⟩ :=
        ih [] (n + 1) (by omega) (by simpa using h0.symm)
      refine ⟨(chunk ++ [line]) :: L', ?_, ?_, ?_, ?_, ?_⟩
      · simp [splitGo, hk0, h0, hgo, Except.map]
      · simp [hflat]
      · simp only [List.length_cons, hlen]
        have he : chunk.length + (rest.length + 1) + k - 1
            = (0 + rest.length + k - 1) + k := by omega
        simp only [List.length_cons, List.length_nil, he]
        rw [Nat.add_div_right _ hk]
      · intro c hcm
        cases L' with
        | nil => simp at hcm
        | cons b t =>
          rw [List.dropLast_cons₂] at hcm
          rcases List.mem_cons.mp hcm with rfl | hm
          · simp; omega
          · exact hdl c hm
      · intro c hcm
        rcases List.mem_cons.mp hcm with rfl | hm
        · exact ⟨by simp only [List.length_append, List.length_singleton]; omega,
                 by simp only [List.length_append, List.length_singleton]; omega⟩
        · exact hall c hm
    · -- the chunk keeps accumulating
      have hcl : chunk.length + 1 = n % k := by
        rw [hc, ← mod_pred_of_ne k n hk hn h0]
      obtain ⟨L, hgo, hflat, hlen, hdl, hall⟩ :=
        ih (chunk ++ [line]) (n + 1) (by omega) (by simp [hcl])
      refine ⟨L, ?_, ?_, ?_, hdl, hall⟩
      · simp [splitGo, hk0, h0, hgo]
      · simp [hflat]
      · rw [hlen]; congr 1; simp; omega

/-- C2: for every input record stream of `N` records and every positive
chunk size `k`, `split_jsonl_file` returns exactly `⌈N/k⌉` work units whose
concatenation in unit order is the original input (no record duplicated,
dropped or reordered); every unit except possibly the last has exactly `k`
records, and every unit (in particular the last) has between 1 and `k`. -/
theorem chunker_partition_correct {α : Type} (k : Nat) (lines : List α) (hk : 0 < k) :
    ∃ L, split_jsonl_file k lines = .ok L ∧
      L.length = (lines.length + k - 1) / k ∧
      L.flatten = lines ∧
      (∀ c ∈ L.dropLast, c.length = k) ∧
      (∀ c ∈ L, 1 ≤ c.length ∧ c.length ≤ k) := by
  obtain ⟨L, h1, h2, h3, h4, h5⟩ := splitGo_spec k hk lines [] 1 (by omega) (by simp)
  refine ⟨L, h1, ?_, by simpa using h2, h4, h5⟩
  simpa using h3

/-- Witness for C2: chunking seven records with `k = 3` yields `⌈7/3⌉ = 3`
units partitioning the input. -/
theorem chunker_partition_correct_witness :
    ∃ L, split_jsonl_file 3 [0, 1, 2, 3, 4, 5, 6] = .ok L ∧
      L.length = ([0, 1, 2, 3, 4, 5, 6].length + 3 - 1) / 3 ∧
      L.flatten = [0, 1, 2, 3, 4, 5, 6] ∧
      (∀ c ∈ L.dropLast, c.length = 3) ∧
      (∀ c ∈ L, 1 ≤ c.length ∧ c.length ≤ 3) :=
  chunker_partition_correct 3 [0, 1, 2, 3, 4, 5, 6] (by decide)

/-- C10: the positive-chunk-size precondition is exactly what totality
needs: with `chunk_size = 0` the unguarded `line_number % chunk_size` test
raises `ZeroDivisionError` as soon as the loop body runs (i.e. on every
non-empty input), while any positive chunk size returns normally on every
input. -/
theorem chunk_size_zero_division {α : Type} :
    (∀ (line : α) (rest : List α),
        split_jsonl_file 0 (line :: rest) = .error .ZeroDivisionError) ∧
    (∀ (k : Nat) (lines : List α), 0 < k →
        ∃ L, split_jsonl_file k lines = .ok L) := by
  constructor
  · intro line rest
    simp [split_jsonl_file, splitGo]
  · intro k lines hk
    obtain ⟨L, h1, -⟩ := splitGo_spec k hk lines [] 1 (by omega) (by simp)
    exact ⟨L, h1⟩

/-- Witness for C10: a one-record input with chunk size 0 raises, and a
three-record input with chunk size 2 returns normally. -/
theorem chunk_size_zero_division_witness :
    split_jsonl_file 0 [true] = .error .ZeroDivisionError ∧
    ∃ L, split_jsonl_file 2 [true, false, true] = .ok L :=
  ⟨chunk_size_zero_division.left true [],
   chunk_size_zero_division.right 2 [true, false, true] (by decide)⟩

/-! ## Remote Job Client: the tenacity retry decorators

Each of `upload_file`, `create_batch`, `get_batch_status` carries

```python
@retry(reraise=True, stop=stop_after_attempt(5),
       wait=wait_exponential(multiplier=1, min=4, max=10),
       retry=retry_if_exception_type(httpx.RequestError))
```

and `download_batch_results` the same with `stop_after_attempt(3)`.
tenacity semantics: run the body; an exception not matching the `retry`
predicate propagates at once; a matching one is retried until the attempt
budget is reached, after which (`reraise=True`) the last exception is
re-raised unchanged.  The body of one attempt is an oracle
`f : Nat → Except PyExc α` giving the outcome of the `i`-th attempt
(0-indexed); the wrapper returns the final outcome together with the
number of attempts made. -/

/-- The retry loop: `rem` is the number of attempts still allowed after
the current one, `i` the index of the current attempt. -/
def retryRun {α : Type} (retryOn : PyExc → Bool) (f : Nat → Except PyExc α) :
    Nat → Nat → Except PyExc α × Nat
  | 0, i => (f i, i + 1)
  | rem + 1, i =>
    match f i with
    | .ok a => (.ok a, i + 1)
    | .error e => if retryOn e then retryRun retryOn f rem (i + 1) else (.error e, i + 1)

/-- Predicate `retry_if_exception_type(httpx.RequestError)`: only transport-level
errors are retryable; `httpx.HTTPStatusError` is not a `RequestError`. -/
def retry_if_RequestError : PyExc → Bool
  | .RequestError => true
  | _ => false

/-- A `@retry(reraise=True, stop=stop_after_attempt(maxAttempts), ...)`
wrapper around an attempt oracle. -/
def tenacity_retry {α : Type} (maxAttempts : Nat) (f : Nat → Except PyExc α) :
    Except PyExc α × Nat :=
  retryRun retry_if_RequestError f (maxAttempts - 1) 0

/-- The decorator on `BatchManager.upload_file`: budget 5. -/
def upload_file_retried {α : Type} (f : Nat → Except PyExc α) : Except PyExc α × Nat :=
  tenacity_retry 5 f

/-- The decorator on `BatchManager.create_batch`: budget 5. -/
def create_batch_retried {α : Type} (f : Nat → Except PyExc α) : Except PyExc α × Nat :=
  tenacity_retry 5 f

/-- The decorator on `BatchManager.get_batch_status`: budget 5. -/
def get_batch_status_retried {α : Type} (f : Nat → Except PyExc α) : Except PyExc α × Nat :=
  tenacity_retry 5 f

/-- The decorator on `BatchManager.download_batch_results`: budget 3. -/
def download_batch_results_retried {α : Type} (f : Nat → Except PyExc α) : Except PyExc α × Nat :=
  tenacity_retry 3 f

theorem retryRun_ok {α : Type} (r : PyExc → Bool) (f : Nat → Except PyExc α) (i : Nat)
    (a : α) (h : f i = .ok a) (rem : Nat) : retryRun r f rem i = (.ok a, i + 1) := by
  cases rem <;> simp [retryRun, h]

theorem retryRun_noretry {α : Type} (r : PyExc → Bool) (f : Nat → Except PyExc α) (i : Nat)
    (e : PyExc) (h : f i = .error e) (hr : r e = false) (rem : Nat) :
    retryRun r f rem i = (.error e, i + 1) := by
  cases rem <;> simp [retryRun, h, hr]

theorem retryRun_step {α : Type} (r : PyExc → Bool) (f : Nat → Except PyExc α) (i : Nat)
    (e : PyExc) (h : f i = .error e) (hr : r e = true) (rem : Nat) :
    retryRun r f (rem + 1) i = retryRun r f rem (i + 1) := by
  simp [retryRun, h, hr]

theorem retryRun_exhausted {α : Type} (r : PyExc → Bool) (f : Nat → Except PyExc α) (i : Nat)
    (e : PyExc) (h : f i = .error e) : retryRun r f 0 i = (.error e, i + 1) := by
  simp [retryRun, h]

/-- C3: for each client operation, retries happen only on transient
transport errors (`httpx.RequestError`), never on HTTP-status rejections:
a body failing transiently twice then succeeding yields the success after
exactly 3 attempts on all four operations; a non-retryable exception is
surfaced after exactly 1 attempt; the budget is 5 for upload/submit/poll
and 3 for fetch, and an exhausted budget re-raises the last error
unchanged. -/
theorem client_retry_policy {α : Type} :
    (∀ (f : Nat → Except PyExc α) (a : α),
        f 0 = .error .RequestError → f 1 = .error .RequestError → f 2 = .ok a →
        upload_file_retried f = (.ok a, 3) ∧ create_batch_retried f = (.ok a, 3) ∧
        get_batch_status_retried f = (.ok a, 3) ∧ download_batch_results_retried f = (.ok a, 3)) ∧
    (∀ (f : Nat → Except PyExc α) (e : PyExc),
        retry_if_RequestError e = false → f 0 = .error e →
        upload_file_retried f = (.error e, 1) ∧ create_batch_retried f = (.error e, 1) ∧
        get_batch_status_retried f = (.error e, 1) ∧ download_batch_results_retried f = (.error e, 1)) ∧
    (∀ (f : Nat → Except PyExc α),
        (∀ i, i < 5 → f i = .error .RequestError) →
        upload_file_retried f = (.error .RequestError, 5) ∧
        create_batch_retried f = (.error .RequestError, 5) ∧
        get_batch_status_retried f = (.error .RequestError, 5)) ∧
    (∀ (f : Nat → Except PyExc α),
        (∀ i, i < 3 → f i = .error .RequestError) →
        download_batch_results_retried f = (.error .RequestError, 3)) := by
  have hreq : retry_if_RequestError .RequestError = true := rfl
  refine ⟨?_, ?_, ?_, ?_⟩
  · intro f a h0 h1 h2
    have h5 : retryRun retry_if_RequestError f 4 0 = (.ok a, 3) := by
      rw [retryRun_step _ f 0 _ h0 hreq, retryRun_step _ f 1 _ h1 hreq,
        retryRun_ok _ f 2 a h2]
    have h3 : retryRun retry_if_RequestError f 2 0 = (.ok a, 3) := by
      rw [retryRun_step _ f 0 _ h0 hreq, retryRun_step _ f 1 _ h1 hreq,
        retryRun_ok _ f 2 a h2]
    exact ⟨h5, h5, h5, h3⟩
  · intro f e hr h0
    have h5 : retryRun retry_if_RequestError f 4 0 = (.error e, 1) :=
      retryRun_noretry _ f 0 e h0 hr 4
    have h3 : retryRun retry_if_RequestError f 2 0 = (.error e, 1) :=
      retryRun_noretry _ f 0 e h0 hr 2
    exact ⟨h5, h5, h5, h3⟩
  · intro f hf
    have h5 : retryRun retry_if_RequestError f 4 0 = (.error .RequestError, 5) := by
      rw [retryRun_step _ f 0 _ (hf 0 (by omega)) hreq,
        retryRun_step _ f 1 _ (hf 1 (by omega)) hreq,
        retryRun_step _ f 2 _ (hf 2 (by omega)) hreq,
        retryRun_step _ f 3 _ (hf 3 (by omega)) hreq,
        retryRun_exhausted _ f 4 _ (hf 4 (by omega))]
    exact ⟨h5, h5, h5⟩
  · intro f hf
    rw [show download_batch_results_retried f
          = retryRun retry_if_RequestError f 2 0 from rfl,
      retryRun_step _ f 0 _ (hf 0 (by omega)) hreq,
      retryRun_step _ f 1 _ (hf 1 (by omega)) hreq,
      retryRun_exhausted _ f 2 _ (hf 2 (by omega))]

/-- Witness for C3 on concrete attempt oracles: two transient failures
then success gives `(ok, 3)`; an immediate HTTP 401 rejection gives one
attempt; five (resp. three) transient failures exhaust the budget. -/
theorem client_retry_policy_witness :
    (upload_file_retried (fun i => if i < 2 then .error .RequestError else .ok "file_123")
        = (.ok "file_123", 3)) ∧
    (upload_file_retried (fun _ => .error (.HTTPStatusError 401) : Nat → Except PyExc String)
        = (.error (.HTTPStatusError 401), 1)) ∧
    (upload_file_retried (fun _ => .error .RequestError : Nat → Except PyExc String)
        = (.error .RequestError, 5)) ∧
    (download_batch_results_retried (fun _ => .error .RequestError : Nat → Except PyExc String)
        = (.error .RequestError, 3)) :=
  ⟨((client_retry_policy.left
      (fun i => if i < 2 then .error .RequestError else .ok "file_123") "file_123"
      rfl rfl rfl).left),
   ((client_retry_policy.right.left
      (fun _ => .error (.HTTPStatusError 401)) (.HTTPStatusError 401)
      rfl rfl).left),
   ((client_retry_policy.right.right.left
      (fun _ => .error .RequestError) (fun _ _ => rfl)).left),
   (client_retry_policy.right.right.right
      (fun _ => .error .RequestError) (fun _ _ => rfl))⟩

/-! ## Remote Job Client: one attempt of `BatchManager.upload_file`

```python
async def upload_file(self, file_path: str) -> str:
    logger.info(f"Uploading file: {file_path}")
    upload_url = "/v1/files"
    with open(file_path, 'rb') as f:
        files = {'file': (os.path.basename(file_path), f, 'application/jsonl')}
        data = {'purpose': 'batch'}
        try:
            response = await self.client.post(upload_url, files=files, data=data)
            response.raise_for_status()
            file_id = response.json()['id']
            ...
            return file_id
        except ...: raise
```

Python resolves the global name `os` in the *module* namespace of
`batch_manager.py` (plus builtins).  The names bound at module level in
`batch_manager.py` are exactly its imports and top-level assignments; we
list them verbatim from the source. -/

/-- The global names bound at module level in
`openai_batch_manager/batch_manager.py`: the `import`/`from ... import`
bindings of lines 3-21 and the top-level assignments of lines 24-39. -/
def batch_manager_module_names : List String :=
  ["asyncio", "httpx", "json", "time",
   "List", "Optional", "Dict",
   "API_KEY", "COMPLETION_WINDOW", "ENDPOINT",
   "ensure_directory", "clean_up_files",
   "logging",
   "retry", "stop_after_attempt", "wait_exponential", "retry_if_exception_type",
   "tqdm_asyncio",
   "logger", "formatter", "ch", "fh",
   "BatchManager"]

/-- Outcome of the `client.post` round trip, as observed by the caller. -/
inductive HttpPostOutcome where
  /-- the transport raised `httpx.RequestError` -/
  | netError
  /-- a response arrived, with its HTTP status and the `id` field of its
  JSON body (`none` when the body has no `id` key) -/
  | response (status : Nat) (idField : Option String)
  deriving DecidableEq, Repr

/-- One attempt of the body of `BatchManager.upload_file`, over two
oracles: whether `open(file_path, 'rb')` succeeds, and the outcome of the
POST.  Evaluation order follows the source: the file is opened, then the
`files` dict is built — which evaluates `os.path.basename` and hence looks
up the global `os` — then the request is sent and `raise_for_status` and
the `['id']` subscript run. -/
def upload_file_attempt (fileReadable : Bool) (post : HttpPostOutcome) :
    Except PyExc String :=
  if !fileReadable then
    .error (.OSError "open failed")
  else if !(batch_manager_module_names.contains "os") then
    .error (.NameError "os")
  else
    match post with
    | .netError => .error .RequestError
    | .response status idField =>
      if 200 ≤ status ∧ status < 300 then
        match idField with
        | some fid => .ok fid
        | none => .error (.KeyError "id")
      else
        .error (.HTTPStatusError status)

/-- C1 (code bug): the claim says `upload_file` on a readable chunk file
either returns the uploaded-file id or fails with the transient/remote
taxonomy — but `batch_manager.py` never imports `os`, so building the
`files` dict raises `NameError: name 'os' is not defined` on every call,
even on a readable file whose upload the server would accept with
HTTP 200 and `{'id': 'file_123'}` (the exact scenario the repository's own
`test_upload_file_success` asserts to succeed). -/
theorem upload_file_raises_NameError :
    upload_file_attempt true (.response 200 (some "file_123"))
        = .error (.NameError "os") ∧
    "os" ∉ batch_manager_module_names := by
  exact ⟨rfl, by decide⟩


/-! ## Lifecycle Orchestrator: `BatchManager.process_batch`

```python
async def process_batch(self, chunk_file):
    try:
        file_id = await self.upload_file(chunk_file)
        batch_id = await self.create_batch(file_id)
        status = None
        with tqdm_asyncio(...) as pbar:
            while True:
                status_info = await self.get_batch_status(batch_id)
                status = status_info.get('status')
                if status == 'succeeded': ...; break
                elif status in ['failed', 'cancelled']:
                    raise RuntimeError(f"Batch {batch_id} ended with status: {status}")
                else: ...; await asyncio.sleep(30)
        if status == 'succeeded':
            output_file = f"{self.output_dir}/results_{batch_id}.jsonl"
            await self.download_batch_results(batch_id, output_file)
    except Exception as e:
        logger.error(...); raise
```

The four client operations (already wrapped in their retry decorators) are
oracles in a `RemoteEnv`; `poll` additionally takes the index of the poll
within the loop.  The while loop is unbounded in the source, so its
embedding takes fuel and returns `none` when no terminal status arrives in
time.  Calls made are logged as `Eff` events. -/

/-- A remote call made by `process_batch`, with its arguments. -/
inductive Eff where
  /-- call `upload_file(chunk_file)` -/
  | uploadCall (chunk_file : String)
  /-- call `create_batch(file_id)` -/
  | createCall (file_id : String)
  /-- one `get_batch_status(batch_id)` poll of the while loop -/
  | pollCall (batch_id : String)
  /-- call `download_batch_results(batch_id, output_file)` -/
  | downloadCall (batch_id : String) (output_file : String)
  deriving DecidableEq, Repr

/-- Outcomes of the retried client operations, as seen by `process_batch`:
`upload` maps a chunk file to a file id or an exception, `create` a file id
to a batch id, `poll` gives the `status_info.get('status')` field of the
`i`-th poll of a batch (`none` for a missing field), `download` the
outcome of fetching the result to the given output file. -/
structure RemoteEnv where
  upload : String → Except PyExc String
  create : String → Except PyExc String
  poll : String → Nat → Except PyExc (Option String)
  download : String → String → Except PyExc Unit

/-- Statuses on which the while loop stops. -/
def isTerminalStatus (st : Option String) : Bool :=
  st = some "succeeded" || st = some "failed" || st = some "cancelled"

/-- The `while True:` polling loop of `process_batch`: returns the loop
outcome (`ok status` after `break`, `error` for the `RuntimeError` raised
on failed/cancelled or for an exception out of `get_batch_status`)
together with the number of polls made, or `none` when `fuel` runs out
first.  `i` is the index of the next poll. -/
def pollLoop (env : RemoteEnv) (batch_id : String) :
    Nat → Nat → Option (Except PyExc (Option String) × Nat)
  | 0, _ => none
  | fuel + 1, i =>
    match env.poll batch_id i with
    | .error e => some (.error e, i + 1)
    | .ok st =>
      if st = some "succeeded" then
        some (.ok st, i + 1)
      else if st = some "failed" ∨ st = some "cancelled" then
        some (.error (.RuntimeError
          ("Batch " ++ batch_id ++ " ended with status: " ++ st.getD "None")), i + 1)
      else
        pollLoop env batch_id fuel (i + 1)

/-- The loop outcome at a terminal status `st`: `break` on succeeded,
`RuntimeError` on failed/cancelled. -/
def pollExitResult (batch_id : String) (st : Option String) :
    Except PyExc (Option String) :=
  if st = some "succeeded" then .ok st
  else .error (.RuntimeError
    ("Batch " ++ batch_id ++ " ended with status: " ++ st.getD "None"))

/-- Method `BatchManager.process_batch`, returning its outcome and the remote
calls it made, or `none` when the polling fuel runs out. -/
def process_batch (env : RemoteEnv) (output_dir : String) (fuel : Nat)
    (chunk_file : String) : Option (Except PyExc Unit × List Eff) :=
  match env.upload chunk_file with
  | .error e => some (.error e, [.uploadCall chunk_file])
  | .ok file_id =>
    match env.create file_id with
    | .error e => some (.error e, [.uploadCall chunk_file, .createCall file_id])
    | .ok batch_id =>
      match pollLoop env batch_id fuel 0 with
      | none => none
      | some (.error e, n) =>
        some (.error e, .uploadCall chunk_file :: .createCall file_id ::
          List.replicate n (.pollCall batch_id))
      | some (.ok st, n) =>
        let base := Eff.uploadCall chunk_file :: Eff.createCall file_id ::
          List.replicate n (Eff.pollCall batch_id)
        if st = some "succeeded" then
          let output_file := output_dir ++ "/results_" ++ batch_id ++ ".jsonl"
          match env.download batch_id output_file with
          | .error e => some (.error e, base ++ [.downloadCall batch_id output_file])
          | .ok _ => some (.ok (), base ++ [.downloadCall batch_id output_file])
        else
          some (.ok (), base)

/-- The loop exits at the first terminal poll: if polls `j, ..., i - 1`
answer non-terminal statuses and poll `i` a terminal one, the loop started
at `j` with enough fuel returns the exit outcome of poll `i` after poll
`i + 1` polls in total. -/
theorem pollLoop_first_terminal (env : RemoteEnv) (bid : String) (i : Nat)
    (sti : Option String) (hterm : env.poll bid i = .ok sti)
    (ht : isTerminalStatus sti = true) :
    ∀ (fuel j : Nat), j ≤ i → i - j < fuel →
    (∀ m, j ≤ m → m < i → ∃ st, env.poll bid m = .ok st ∧ isTerminalStatus st = false) →
    pollLoop env bid fuel j = some (pollExitResult bid sti, i + 1) := by
  intro fuel
  induction fuel with
  | zero => intro j _ h; omega
  | succ fuel ih =>
    intro j hj hf hpre
    rcases Nat.eq_or_lt_of_le hj with rfl | hlt
    · simp only [pollLoop, hterm]
      simp only [isTerminalStatus, Bool.or_eq_true, decide_eq_true_eq] at ht
      by_cases hs : sti = some "succeeded"
      · simp [hs, pollExitResult]
      · have hfc : sti = some "failed" ∨ sti = some "cancelled" := by tauto
        simp [hs, hfc, pollExitResult]
    · obtain ⟨st, hst, hnt⟩ := hpre j (Nat.le_refl j) hlt
      simp only [isTerminalStatus, Bool.or_eq_false_iff, decide_eq_false_iff_not] at hnt
      simp only [pollLoop, hst]
      rw [if_neg hnt.left.left, if_neg (by tauto)]
      exact ih (j + 1) hlt (by omega) (fun m hm hmi => hpre m (by omega) hmi)

/-- C4: the polling loop stops at the first poll whose status snapshot is
terminal, and a download of the Result Artifact — to
`{output_dir}/results_{batch_id}.jsonl` — is triggered iff that terminal
status is `succeeded`: on `failed`/`cancelled` the unit errors with no
download event. -/
theorem polling_downloads_iff_succeeded (env : RemoteEnv) (od : String) (fuel : Nat)
    (cf fid bid : String) (i : Nat) (sti : Option String)
    (hu : env.upload cf = .ok fid) (hc : env.create fid = .ok bid)
    (hpre : ∀ m, m < i → ∃ st, env.poll bid m = .ok st ∧ isTerminalStatus st = false)
    (hfuel : i < fuel) (hterm : env.poll bid i = .ok sti) :
    (sti = some "succeeded" →
      ∃ res, process_batch env od fuel cf = some (res,
        .uploadCall cf :: .createCall fid :: (List.replicate (i + 1) (.pollCall bid)
          ++ [.downloadCall bid (od ++ "/results_" ++ bid ++ ".jsonl")]))) ∧
    ((sti = some "failed" ∨ sti = some "cancelled") →
      process_batch env od fuel cf = some (
        .error (.RuntimeError ("Batch " ++ bid ++ " ended with status: " ++ sti.getD "None")),
        .uploadCall cf :: .createCall fid :: List.replicate (i + 1) (.pollCall bid))) := by
  constructor
  · intro hs
    have ht : isTerminalStatus sti = true := by
      simp [isTerminalStatus, hs]
    have hloop := pollLoop_first_terminal env bid i sti hterm ht fuel 0
      (by omega) (by omega) (fun m _ hmi => hpre m hmi)
    rw [pollExitResult, if_pos hs] at hloop
    simp only [process_batch, hu, hc, hloop, if_pos hs]
    cases hd : env.download bid (od ++ "/results_" ++ bid ++ ".jsonl") with
    | error e => exact ⟨.error e, by simp⟩
    | ok u => exact ⟨.ok (), by simp⟩
  · intro hs
    have hns : sti ≠ some "succeeded" := by
      rcases hs with rfl | rfl <;> simp
    have ht : isTerminalStatus sti = true := by
      rcases hs with rfl | rfl <;> simp [isTerminalStatus]
    have hloop := pollLoop_first_terminal env bid i sti hterm ht fuel 0
      (by omega) (by omega) (fun m _ hmi => hpre m hmi)
    rw [pollExitResult, if_neg hns] at hloop
    simp only [process_batch, hu, hc, hloop]

/-- Polling oracle environment for the C4 witness, succeeding branch: two
`in_progress` polls then `succeeded`. -/
def envPollSucceeds : RemoteEnv where
  upload := fun _ => .ok "file-1"
  create := fun _ => .ok "batch-1"
  poll := fun _ n => if n < 2 then .ok (some "in_progress") else .ok (some "succeeded")
  download := fun _ _ => .ok ()

/-- Polling oracle environment for the C4 witness, failing branch: two
`in_progress` polls then `failed`. -/
def envPollFails : RemoteEnv where
  upload := fun _ => .ok "file-1"
  create := fun _ => .ok "batch-1"
  poll := fun _ n => if n < 2 then .ok (some "in_progress") else .ok (some "failed")
  download := fun _ _ => .ok ()

/-- Witness for C4: with two non-terminal polls then `succeeded`, the unit
downloads after exactly three polls; with polls ending `failed`, it errors
with no download event. -/
theorem polling_downloads_iff_succeeded_witness :
    (∃ res, process_batch envPollSucceeds "out" 9 "c.jsonl" = some (res,
        .uploadCall "c.jsonl" :: .createCall "file-1" ::
          (List.replicate 3 (.pollCall "batch-1")
            ++ [.downloadCall "batch-1" ("out" ++ "/results_" ++ "batch-1" ++ ".jsonl")]))) ∧
    process_batch envPollFails "out" 9 "c.jsonl" = some (
        .error (.RuntimeError ("Batch " ++ "batch-1" ++ " ended with status: "
          ++ (some "failed").getD "None")),
        .uploadCall "c.jsonl" :: .createCall "file-1" ::
          List.replicate 3 (.pollCall "batch-1")) := by
  constructor
  · exact (polling_downloads_iff_succeeded envPollSucceeds "out" 9 "c.jsonl" "file-1" "batch-1" 2
      (some "succeeded") rfl rfl
      (fun m hm => ⟨some "in_progress", by simp [envPollSucceeds, hm], rfl⟩)
      (by omega) rfl).left rfl
  · exact (polling_downloads_iff_succeeded envPollFails "out" 9 "c.jsonl" "file-1" "batch-1" 2
      (some "failed") rfl rfl
      (fun m hm => ⟨some "in_progress", by simp [envPollFails, hm], rfl⟩)
      (by omega) rfl).right (Or.inl rfl)

/-- C9 (implicit): the polling loop ends a poll cycle only on exactly
`succeeded`, `failed` or `cancelled`; any other snapshot — a missing
status field or an unrecognised string such as `completed` — makes the
loop sleep and poll again, and can never be the status that ends polling. -/
theorem polling_terminal_vocabulary (env : RemoteEnv) (bid : String) :
    (∀ fuel i st, env.poll bid i = .ok st →
      st ≠ some "succeeded" → st ≠ some "failed" → st ≠ some "cancelled" →
      pollLoop env bid (fuel + 1) i = pollLoop env bid fuel (i + 1)) ∧
    (∀ fuel i res n, (∀ j, ∃ st, env.poll bid j = .ok st) →
      pollLoop env bid fuel i = some (res, n) →
      ∃ st, env.poll bid (n - 1) = .ok st ∧ isTerminalStatus st = true) := by
  constructor
  · intro fuel i st hst h1 h2 h3
    simp only [pollLoop, hst]
    rw [if_neg h1, if_neg (by tauto)]
  · intro fuel
    induction fuel with
    | zero => intro i res n _ h; simp [pollLoop] at h
    | succ fuel ih =>
      intro i res n htot h
      obtain ⟨st, hst⟩ := htot i
      simp only [pollLoop, hst] at h
      by_cases h1 : st = some "succeeded"
      · rw [if_pos h1] at h
        simp only [Option.some.injEq, Prod.mk.injEq] at h
        obtain ⟨-, hn⟩ := h
        subst hn
        exact ⟨st, by simpa using hst, by simp [isTerminalStatus, h1]⟩
      · rw [if_neg h1] at h
        by_cases h2 : st = some "failed" ∨ st = some "cancelled"
        · rw [if_pos h2] at h
          simp only [Option.some.injEq, Prod.mk.injEq] at h
          obtain ⟨-, hn⟩ := h
          subst hn
          refine ⟨st, by simpa using hst, ?_⟩
          rcases h2 with rfl | rfl <;> simp [isTerminalStatus]
        · rw [if_neg h2] at h
          exact ih (i + 1) res n htot h

/-- Environment whose polls always answer `completed` — a vocabulary the
loop does not recognise. -/
def envPollCompleted : RemoteEnv where
  upload := fun _ => .ok "f"
  create := fun _ => .ok "b"
  poll := fun _ _ => .ok (some "completed")
  download := fun _ _ => .ok ()

/-- Environment whose polls answer a snapshot with no `status` field. -/
def envPollMissing : RemoteEnv where
  upload := fun _ => .ok "f"
  create := fun _ => .ok "b"
  poll := fun _ _ => .ok none
  download := fun _ _ => .ok ()

/-- Environment with two missing-status polls then `succeeded`. -/
def envPollLate : RemoteEnv where
  upload := fun _ => .ok "f"
  create := fun _ => .ok "b"
  poll := fun _ n => if n < 2 then .ok none else .ok (some "succeeded")
  download := fun _ _ => .ok ()

/-- Witness for C9: a `completed` snapshot (and a missing status field)
leaves the loop polling, and a loop that did end (on `succeeded` at the
third poll) ended on a terminal status. -/
theorem polling_terminal_vocabulary_witness :
    (pollLoop envPollCompleted "b" (4 + 1) 0 = pollLoop envPollCompleted "b" 4 (0 + 1)) ∧
    (pollLoop envPollMissing "b" (4 + 1) 0 = pollLoop envPollMissing "b" 4 (0 + 1)) ∧
    (∃ st, envPollLate.poll "b" (3 - 1) = .ok st ∧ isTerminalStatus st = true) := by
  refine ⟨?_, ?_, ?_⟩
  · exact (polling_terminal_vocabulary _ "b").left 4 0 (some "completed") rfl
      (by simp) (by simp) (by simp)
  · exact (polling_terminal_vocabulary _ "b").left 4 0 none rfl
      (by simp) (by simp) (by simp)
  · exact (polling_terminal_vocabulary _ "b").right 9 0 (.ok (some "succeeded")) 3
      (fun j => ⟨if j < 2 then none else some "succeeded", by by_cases hj : j < 2 <;> simp [envPollLate, hj]⟩)
      (by rfl)

/-! ## Orchestration across units: `BatchManager.process_batches` and Cleanup

```python
async def process_batches(self, chunk_files):
    ensure_directory(self.output_dir)
    failed_batches = []
    processed_files = []
    for chunk_file in tqdm_asyncio(chunk_files, ...):
        try:
            await self.process_batch(chunk_file)
            processed_files.append(chunk_file)
        except Exception as e:
            logger.error(...); failed_batches.append(chunk_file)
    clean_up_files(processed_files, logger)
    if failed_batches:
        logger.warning(f"The following batches failed to process: {failed_batches}")
    else:
        logger.info("All batches processed successfully.")
```

The filesystem is a list of file paths; `os.remove` deletes the path from
it, and a deletion failure (path absent) is caught and logged without
stopping the loop, exactly as in `utils.clean_up_files`. -/

/-- Function `utils.clean_up_files`: delete each listed path from the disk;
per-file failures are swallowed, the loop always continues. -/
def clean_up_files : List String → List String → List String
  | [], disk => disk
  | f :: rest, disk => clean_up_files rest (disk.filter (fun g => g ≠ f))

/-- The `for chunk_file in chunk_files:` loop of `process_batches`:
returns the `processed_files` and `failed_batches` accumulators and the
remote calls made, or `none` if some unit's polling fuel ran out. -/
def batches_go (env : RemoteEnv) (output_dir : String) (fuel : Nat) :
    List String → Option (List String × List String × List Eff)
  | [] => some ([], [], [])
  | cf :: rest =>
    match process_batch env output_dir fuel cf with
    | none => none
    | some (res, effs) =>
      (batches_go env output_dir fuel rest).map fun pfe =>
        match res with
        | .ok _ => (cf :: pfe.1, pfe.2.1, effs ++ pfe.2.2)
        | .error _ => (pfe.1, cf :: pfe.2.1, effs ++ pfe.2.2)

/-- The `if failed_batches:` report at the end of `process_batches`:
`some` of the failed list when non-empty, silence otherwise. -/
def finalReport (failed : List String) : Option (List String) :=
  if failed.isEmpty then none else some failed

/-- Method `BatchManager.process_batches`: run every unit, then clean up the
successfully processed chunk files.  Returns
`(processed, failed, final disk, remote calls)`. -/
def process_batches (env : RemoteEnv) (output_dir : String) (fuel : Nat)
    (chunk_files disk : List String) :
    Option (List String × List String × List String × List Eff) :=
  (batches_go env output_dir fuel chunk_files).map fun pfe =>
    (pfe.1, pfe.2.1, clean_up_files pfe.1 disk, pfe.2.2)

/-- Whether a unit's `process_batch` run reaches `Succeeded`. -/
def unitSucceeds (env : RemoteEnv) (output_dir : String) (fuel : Nat)
    (chunk_file : String) : Bool :=
  match process_batch env output_dir fuel chunk_file with
  | some (.ok _, _) => true
  | _ => false

theorem batches_go_filter (env : RemoteEnv) (od : String) (fuel : Nat) :
    ∀ files : List String, (∀ cf ∈ files, (process_batch env od fuel cf).isSome) →
    ∃ es, batches_go env od fuel files
      = some (files.filter (fun cf => unitSucceeds env od fuel cf),
              files.filter (fun cf => !unitSucceeds env od fuel cf), es) := by
  intro files
  induction files with
  | nil => exact fun _ => ⟨[], rfl⟩
  | cons cf rest ih =>
    intro htot
    obtain ⟨es, hes⟩ := ih (fun c hc => htot c (List.mem_cons_of_mem _ hc))
    have hcf := htot cf (List.mem_cons_self _ _)
    cases hpb : process_batch env od fuel cf with
    | none => rw [hpb] at hcf; simp at hcf
    | some re =>
      obtain ⟨res, effs⟩ := re
      cases res with
      | ok _ =>
        have hu : unitSucceeds env od fuel cf = true := by simp [unitSucceeds, hpb]
        exact ⟨effs ++ es, by simp [batches_go, hpb, hes, List.filter_cons, hu]⟩
      | error e =>
        have hu : unitSucceeds env od fuel cf = false := by simp [unitSucceeds, hpb]
        exact ⟨effs ++ es, by simp [batches_go, hpb, hes, List.filter_cons, hu]⟩

theorem clean_up_files_mem : ∀ (ps disk : List String) (x : String),
    x ∈ clean_up_files ps disk ↔ x ∈ disk ∧ x ∉ ps := by
  intro ps
  induction ps with
  | nil => simp [clean_up_files]
  | cons f rest ih =>
    intro disk x
    rw [clean_up_files, ih]
    simp only [List.mem_filter, List.mem_cons, decide_eq_true_eq]
    constructor
    · rintro ⟨⟨hd, hne⟩, hr⟩
      exact ⟨hd, by tauto⟩
    · rintro ⟨hd, hn⟩
      exact ⟨⟨hd, by tauto⟩, by tauto⟩

/-- C5: after a full run, Cleanup has deleted exactly the chunk files of
the units that reached `Succeeded`: the final disk consists of the files
that were on disk and were not a successfully processed chunk file, so
every failed unit's chunk file is still on disk. -/
theorem cleanup_deletes_exactly_succeeded (env : RemoteEnv) (od : String) (fuel : Nat)
    (chunk_files disk : List String)
    (htot : ∀ cf ∈ chunk_files, (process_batch env od fuel cf).isSome) :
    ∃ p f d es, process_batches env od fuel chunk_files disk = some (p, f, d, es) ∧
      (∀ x, x ∈ d ↔ x ∈ disk ∧ ¬(x ∈ chunk_files ∧ unitSucceeds env od fuel x = true)) ∧
      (∀ x ∈ chunk_files, unitSucceeds env od fuel x = false → x ∈ disk → x ∈ d) := by
  obtain ⟨es, hes⟩ := batches_go_filter env od fuel chunk_files htot
  refine ⟨_, _, _, es, by rw [process_batches, hes]; rfl, ?_, ?_⟩
  · intro x
    rw [clean_up_files_mem]
    simp [List.mem_filter]
  · intro x hx hfail hdisk
    rw [clean_up_files_mem]
    refine ⟨hdisk, fun hmem => ?_⟩
    rw [List.mem_filter] at hmem
    rw [hfail] at hmem
    simp at hmem

/-- Environment for the orchestrator witnesses: unit `a.jsonl` succeeds
remotely, unit `b.jsonl` reports `failed` at its first poll. -/
def envBatchMixed : RemoteEnv where
  upload := fun cf => .ok ("fid_" ++ cf)
  create := fun fid => .ok ("bid_" ++ fid)
  poll := fun bid _ =>
    if bid = "bid_fid_a.jsonl" then .ok (some "succeeded") else .ok (some "failed")
  download := fun _ _ => .ok ()

/-- Witness for C5: of two chunk files, the first succeeds remotely and
the second's job fails; only the first is deleted from disk. -/
theorem cleanup_deletes_exactly_succeeded_witness :
    ∃ p f d es, process_batches envBatchMixed "out" 9 ["a.jsonl", "b.jsonl"]
        ["a.jsonl", "b.jsonl", "input.jsonl"] = some (p, f, d, es) ∧
      (∀ x, x ∈ d ↔ x ∈ ["a.jsonl", "b.jsonl", "input.jsonl"] ∧
        ¬(x ∈ ["a.jsonl", "b.jsonl"] ∧ unitSucceeds envBatchMixed "out" 9 x = true)) ∧
      (∀ x ∈ ["a.jsonl", "b.jsonl"], unitSucceeds envBatchMixed "out" 9 x = false →
        x ∈ ["a.jsonl", "b.jsonl", "input.jsonl"] → x ∈ d) :=
  cleanup_deletes_exactly_succeeded envBatchMixed "out" 9 ["a.jsonl", "b.jsonl"]
    ["a.jsonl", "b.jsonl", "input.jsonl"]
    (by intro cf hcf; fin_cases hcf <;> rfl)

/-- C6: a failure while processing one unit is confined to it: the run
returns normally, every unit lands in exactly one of the processed or
failed accumulators (in input order), and at the end the non-empty failed
list is reported, not raised. -/
theorem orchestrator_confines_failures (env : RemoteEnv) (od : String) (fuel : Nat)
    (chunk_files disk : List String)
    (htot : ∀ cf ∈ chunk_files, (process_batch env od fuel cf).isSome) :
    ∃ p f d es, process_batches env od fuel chunk_files disk = some (p, f, d, es) ∧
      f = chunk_files.filter (fun cf => !unitSucceeds env od fuel cf) ∧
      p = chunk_files.filter (fun cf => unitSucceeds env od fuel cf) ∧
      (∀ cf ∈ chunk_files, (cf ∈ p ∧ unitSucceeds env od fuel cf = true) ∨
        (cf ∈ f ∧ unitSucceeds env od fuel cf = false)) ∧
      (f ≠ [] → finalReport f = some f) := by
  obtain ⟨es, hes⟩ := batches_go_filter env od fuel chunk_files htot
  refine ⟨_, _, _, es, by rw [process_batches, hes]; rfl, rfl, rfl, ?_, ?_⟩
  · intro cf hcf
    cases hu : unitSucceeds env od fuel cf with
    | true => exact Or.inl ⟨List.mem_filter.mpr ⟨hcf, by simp [hu]⟩, rfl⟩
    | false => exact Or.inr ⟨List.mem_filter.mpr ⟨hcf, by simp [hu]⟩, rfl⟩
  · intro hne
    rw [finalReport, if_neg (by simpa using hne)]

/-- Witness for C6: two chunk files, the first succeeds, the second's
remote job reports `failed`; the run ends with failed list `[b.jsonl]`,
reported, not raised. -/
theorem orchestrator_confines_failures_witness :
    ∃ p f d es, process_batches envBatchMixed "out" 9 ["a.jsonl", "b.jsonl"]
        ["a.jsonl", "b.jsonl", "input.jsonl"] = some (p, f, d, es) ∧
      f = ["a.jsonl", "b.jsonl"].filter (fun cf => !unitSucceeds envBatchMixed "out" 9 cf) ∧
      p = ["a.jsonl", "b.jsonl"].filter (fun cf => unitSucceeds envBatchMixed "out" 9 cf) ∧
      (∀ cf ∈ ["a.jsonl", "b.jsonl"], (cf ∈ p ∧ unitSucceeds envBatchMixed "out" 9 cf = true) ∨
        (cf ∈ f ∧ unitSucceeds envBatchMixed "out" 9 cf = false)) ∧
      (f ≠ [] → finalReport f = some f) :=
  orchestrator_confines_failures envBatchMixed "out" 9 ["a.jsonl", "b.jsonl"]
    ["a.jsonl", "b.jsonl", "input.jsonl"]
    (by intro cf hcf; fin_cases hcf <;> rfl)

/-- C7: a unit whose upload fails never reaches `create_batch` (no submit
or poll call is made, only the upload call); a unit whose submit fails
never enters the polling loop; and such a failure ends only that unit's
processing — the orchestrator records it as failed and handles the
remaining units exactly as it would alone. -/
theorem failed_upload_never_submits (env : RemoteEnv) (od : String) (fuel : Nat)
    (cf : String) :
    (∀ e, env.upload cf = .error e →
      process_batch env od fuel cf = some (.error e, [.uploadCall cf]) ∧
      ∀ res effs, process_batch env od fuel cf = some (res, effs) →
        (∀ fid, Eff.createCall fid ∉ effs) ∧ (∀ bid, Eff.pollCall bid ∉ effs)) ∧
    (∀ fid e, env.upload cf = .ok fid → env.create fid = .error e →
      process_batch env od fuel cf = some (.error e, [.uploadCall cf, .createCall fid]) ∧
      ∀ res effs, process_batch env od fuel cf = some (res, effs) →
        ∀ bid, Eff.pollCall bid ∉ effs) ∧
    (∀ e rest, env.upload cf = .error e →
      batches_go env od fuel (cf :: rest) = (batches_go env od fuel rest).map
        (fun pfe => (pfe.1, cf :: pfe.2.1, .uploadCall cf :: pfe.2.2))) := by
  refine ⟨?_, ?_, ?_⟩
  · intro e he
    have heq : process_batch env od fuel cf = some (.error e, [.uploadCall cf]) := by
      simp [process_batch, he]
    refine ⟨heq, ?_⟩
    intro res effs h
    rw [heq] at h
    simp only [Option.some.injEq, Prod.mk.injEq] at h
    obtain ⟨-, heffs⟩ := h
    subst heffs
    exact ⟨fun fid => by simp, fun bid => by simp⟩
  · intro fid e hu hc
    have heq : process_batch env od fuel cf
        = some (.error e, [.uploadCall cf, .createCall fid]) := by
      simp [process_batch, hu, hc]
    refine ⟨heq, ?_⟩
    intro res effs h
    rw [heq] at h
    simp only [Option.some.injEq, Prod.mk.injEq] at h
    obtain ⟨-, heffs⟩ := h
    subst heffs
    exact fun bid => by simp
  · intro e rest he
    have heq : process_batch env od fuel cf = some (.error e, [.uploadCall cf]) := by
      simp [process_batch, he]
    simp [batches_go, heq]

/-- Environment whose uploads are rejected outright (HTTP 401). -/
def envUploadFails : RemoteEnv where
  upload := fun _ => .error (.HTTPStatusError 401)
  create := fun fid => .ok ("bid_" ++ fid)
  poll := fun _ _ => .ok (some "succeeded")
  download := fun _ _ => .ok ()

/-- Environment whose uploads succeed but whose job submissions are
rejected (HTTP 400). -/
def envCreateFails : RemoteEnv where
  upload := fun cf => .ok ("fid_" ++ cf)
  create := fun _ => .error (.HTTPStatusError 400)
  poll := fun _ _ => .ok (some "succeeded")
  download := fun _ _ => .ok ()

/-- Witness for C7: a 401-rejected upload makes exactly one call and the
orchestrator carries on; a 400-rejected submit stops before any poll. -/
theorem failed_upload_never_submits_witness :
    (process_batch envUploadFails "out" 9 "x.jsonl"
        = some (.error (.HTTPStatusError 401), [.uploadCall "x.jsonl"]) ∧
      ∀ res effs, process_batch envUploadFails "out" 9 "x.jsonl" = some (res, effs) →
        (∀ fid, Eff.createCall fid ∉ effs) ∧ (∀ bid, Eff.pollCall bid ∉ effs)) ∧
    (process_batch envCreateFails "out" 9 "x.jsonl"
        = some (.error (.HTTPStatusError 400),
                [.uploadCall "x.jsonl", .createCall "fid_x.jsonl"]) ∧
      ∀ res effs, process_batch envCreateFails "out" 9 "x.jsonl" = some (res, effs) →
        ∀ bid, Eff.pollCall bid ∉ effs) ∧
    batches_go envUploadFails "out" 9 ["x.jsonl"]
      = (batches_go envUploadFails "out" 9 []).map
          (fun pfe => (pfe.1, "x.jsonl" :: pfe.2.1, .uploadCall "x.jsonl" :: pfe.2.2)) :=
  ⟨(failed_upload_never_submits envUploadFails "out" 9 "x.jsonl").left
      (.HTTPStatusError 401) rfl,
   (failed_upload_never_submits envCreateFails "out" 9 "x.jsonl").right.left
      "fid_x.jsonl" (.HTTPStatusError 400) rfl rfl,
   (failed_upload_never_submits envUploadFails "out" 9 "x.jsonl").right.right
      (.HTTPStatusError 401) [] rfl⟩

/-! ## Connection lifecycle: `cli.run_batch_processing`

```python
async def run_batch_processing(input_file, output_dir, chunk_size, ...):
    manager = BatchManager(...)        # __init__ opens the one httpx.AsyncClient
    try:
        chunk_files = split_jsonl_file(input_file, chunk_size)
        if not chunk_files:
            return
        await manager.process_batches(chunk_files)
    except Exception as e:
        logging.error(...)
    finally:
        await manager.close()          # closes that client on every path
```

The trace records the connection open at construction, one `request`
event per remote call (all through the one `self.client`), and the close
in the `finally:` block.  `splitRes` is the outcome of the chunking step
(its exception is caught by the `except`; `finally` still runs, as it
does on the early `return` and on the normal path). -/

/-- Connection-level event of one `run_batch_processing` execution. -/
inductive ConnEvent where
  /-- event for the `httpx.AsyncClient(...)` created in `BatchManager.__init__` -/
  | openConn
  /-- one remote call through `self.client` -/
  | request (op : Eff)
  /-- event for the `await self.client.aclose()` in `BatchManager.close` -/
  | closeConn
  deriving DecidableEq, Repr

/-- Function `cli.run_batch_processing` as its connection-event trace. -/
def run_batch_processing (env : RemoteEnv) (output_dir : String) (fuel : Nat)
    (splitRes : Except PyExc (List String)) (disk : List String) :
    Option (List ConnEvent) :=
  match splitRes with
  | .error _ => some [ConnEvent.openConn, ConnEvent.closeConn]
  | .ok chunk_files =>
    if chunk_files.isEmpty then
      some [ConnEvent.openConn, ConnEvent.closeConn]
    else
      (process_batches env output_dir fuel chunk_files disk).map fun pfde =>
        ConnEvent.openConn :: (pfde.2.2.2.map ConnEvent.request ++ [ConnEvent.closeConn])

theorem conn_trace_shape (es : List Eff) :
    (ConnEvent.openConn :: (es.map ConnEvent.request ++ [ConnEvent.closeConn])).head?
        = some ConnEvent.openConn ∧
    (ConnEvent.openConn :: (es.map ConnEvent.request ++ [ConnEvent.closeConn])).getLast?
        = some ConnEvent.closeConn ∧
    (ConnEvent.openConn :: (es.map ConnEvent.request ++ [ConnEvent.closeConn])).count
        ConnEvent.openConn = 1 ∧
    (ConnEvent.openConn :: (es.map ConnEvent.request ++ [ConnEvent.closeConn])).count
        ConnEvent.closeConn = 1 ∧
    (∀ ev ∈ ConnEvent.openConn :: (es.map ConnEvent.request ++ [ConnEvent.closeConn]),
      ev = ConnEvent.openConn ∨ ev = ConnEvent.closeConn ∨ ∃ op, ev = ConnEvent.request op) := by
  have hopen : (es.map ConnEvent.request).count ConnEvent.openConn = 0 := by
    rw [List.count_eq_zero]
    intro hmem
    obtain ⟨op, -, habs⟩ := List.mem_map.mp hmem
    exact ConnEvent.noConfusion habs
  have hclose : (es.map ConnEvent.request).count ConnEvent.closeConn = 0 := by
    rw [List.count_eq_zero]
    intro hmem
    obtain ⟨op, -, habs⟩ := List.mem_map.mp hmem
    exact ConnEvent.noConfusion habs
  refine ⟨rfl, ?_, ?_, ?_, ?_⟩
  · rw [show ConnEvent.openConn :: (es.map ConnEvent.request ++ [ConnEvent.closeConn])
        = (ConnEvent.openConn :: es.map ConnEvent.request) ++ [ConnEvent.closeConn]
       from rfl]
    exact List.getLast?_concat _
  · simp [List.count_cons, List.count_append, hopen]
  · simp [List.count_cons, List.count_append, hclose]
  · intro ev hev
    rcases List.mem_cons.mp hev with rfl | hev
    · exact Or.inl rfl
    rcases List.mem_append.mp hev with hev | hev
    · obtain ⟨op, -, rfl⟩ := List.mem_map.mp hev
      exact Or.inr (Or.inr ⟨op, rfl⟩)
    · rcases List.mem_singleton.mp hev with rfl
      exact Or.inr (Or.inl rfl)

/-- C8: on every execution path of `run_batch_processing` — chunking
raised, empty chunk list, and full runs successful or not — the trace
opens exactly one connection, as its first event, every other event but
the final close is a request through that single connection, and the
trace ends with the close. -/
theorem connection_scoped_lifecycle (env : RemoteEnv) (od : String) (fuel : Nat)
    (splitRes : Except PyExc (List String)) (disk : List String)
    (trace : List ConnEvent)
    (h : run_batch_processing env od fuel splitRes disk = some trace) :
    trace.head? = some ConnEvent.openConn ∧
    trace.getLast? = some ConnEvent.closeConn ∧
    trace.count ConnEvent.openConn = 1 ∧
    trace.count ConnEvent.closeConn = 1 ∧
    (∀ ev ∈ trace, ev = ConnEvent.openConn ∨ ev = ConnEvent.closeConn ∨
      ∃ op, ev = ConnEvent.request op) := by
  cases splitRes with
  | error e =>
    simp only [run_batch_processing, Option.some.injEq] at h
    subst h
    exact conn_trace_shape []
  | ok chunk_files =>
    by_cases hemp : chunk_files.isEmpty
    · simp only [run_batch_processing, if_pos hemp, Option.some.injEq] at h
      subst h
      exact conn_trace_shape []
    · simp only [run_batch_processing, if_neg hemp] at h
      cases hpb : process_batches env od fuel chunk_files disk with
      | none => rw [hpb] at h; simp at h
      | some pfde =>
        rw [hpb] at h
        simp only [Option.map_some', Option.some.injEq] at h
        subst h
        exact conn_trace_shape pfde.2.2.2

/-- Witness for C8 on two paths: a run whose chunking step raises, and a
run with one unit whose upload is rejected. -/
theorem connection_scoped_lifecycle_witness :
    (([ConnEvent.openConn, ConnEvent.closeConn] : List ConnEvent).head?
        = some ConnEvent.openConn ∧
      ([ConnEvent.openConn, ConnEvent.closeConn] : List ConnEvent).getLast?
        = some ConnEvent.closeConn ∧
      ([ConnEvent.openConn, ConnEvent.closeConn] : List ConnEvent).count
        ConnEvent.openConn = 1 ∧
      ([ConnEvent.openConn, ConnEvent.closeConn] : List ConnEvent).count
        ConnEvent.closeConn = 1 ∧
      (∀ ev ∈ ([ConnEvent.openConn, ConnEvent.closeConn] : List ConnEvent),
        ev = ConnEvent.openConn ∨ ev = ConnEvent.closeConn ∨
          ∃ op, ev = ConnEvent.request op)) ∧
    (([ConnEvent.openConn, ConnEvent.request (.uploadCall "x.jsonl"), ConnEvent.closeConn]
          : List ConnEvent).head? = some ConnEvent.openConn ∧
      ([ConnEvent.openConn, ConnEvent.request (.uploadCall "x.jsonl"), ConnEvent.closeConn]
          : List ConnEvent).getLast? = some ConnEvent.closeConn ∧
      ([ConnEvent.openConn, ConnEvent.request (.uploadCall "x.jsonl"), ConnEvent.closeConn]
          : List ConnEvent).count ConnEvent.openConn = 1 ∧
      ([ConnEvent.openConn, ConnEvent.request (.uploadCall "x.jsonl"), ConnEvent.closeConn]
          : List ConnEvent).count ConnEvent.closeConn = 1 ∧
      (∀ ev ∈ ([ConnEvent.openConn, ConnEvent.request (.uploadCall "x.jsonl"),
          ConnEvent.closeConn] : List ConnEvent),
        ev = ConnEvent.openConn ∨ ev = ConnEvent.closeConn ∨
          ∃ op, ev = ConnEvent.request op)) :=
  ⟨connection_scoped_lifecycle envUploadFails "out" 9
      (.error (.OSError "unreadable input")) ["x.jsonl"] _ rfl,
   connection_scoped_lifecycle envUploadFails "out" 9
      (.ok ["x.jsonl"]) ["x.jsonl"] _ rfl⟩

end OpenAIBatchManager
